import Mathlib

set_option maxHeartbeats 1000000

/-!
Shallow embedding of the duckpond client-side navigation and
state-reconciliation engine:

* `NotebooksView._mergeSessionsWithNotebooks`, `NotebooksView._applyFilters`,
  `NotebooksView._startNotebook`, `NotebooksView._stopNotebook`
  (src/duckpond/static/js/views/notebooks.js)
* the `Router` class: `_pathToRegex`, `_extractParamNames`, `_matchRoute`,
  `navigate`, `_handleRoute`, `_handle404` (the main application source file)

JS strings are Lean `String`s, JS arrays are `List`s, possibly-absent object
properties are `Option`s, machine-level DOM mutation and network calls are
recorded as explicit effect events.
-/

namespace DuckPond

/-- Model of the JavaScript values a before-navigation hook can resolve to.
Only identity of the value matters to the router (it compares with `===`). -/
inductive JSValue
  | bool (b : Bool)
  | null
  | undefined
  | num (n : Int)
  | str (s : String)
deriving DecidableEq, Repr

/-! ## Data model: notebooks and sessions -/

/-- A session record as returned by the sessions API (`SessionInfoResponse`).
Fields used by the view code. -/
structure SessionRecord where
  session_id : String
  notebook_path : String
  status : String
deriving DecidableEq, Repr

/-- A notebook record held in `this.data.notebooks`.  `filename`, `path`,
`size_bytes`, `modified_at` come from the files API; `extra` stands for any
further attributes the server record may carry (carried along by the object
spread); `session_id`, `status`, `url` are the three properties the merge step
writes (absent before the first merge, hence `Option`). -/
structure Notebook where
  filename : String
  path : String
  size_bytes : Nat
  modified_at : String
  extra : List (String × String)
  session_id : Option String
  status : Option String
  url : Option String
deriving DecidableEq, Repr

/-- Embedding of JS `String.prototype.endsWith`. -/
def strEndsWith (s suf : String) : Bool :=
  suf.data.isSuffixOf s.data

/-- The session-matching predicate used by
`NotebooksView._mergeSessionsWithNotebooks` (notebooks.js lines 102-107):
`s.notebook_path === notebook.filename || s.notebook_path === notebook.path ||
s.notebook_path.endsWith(notebook.filename)`. -/
def sessionMatches (notebook : Notebook) (s : SessionRecord) : Bool :=
  s.notebook_path == notebook.filename ||
  s.notebook_path == notebook.path ||
  strEndsWith s.notebook_path notebook.filename

/-- Embedding of `NotebooksView._mergeSessionsWithNotebooks` (notebooks.js
lines 99-127): map over the notebooks; `Array.prototype.find` returns the
first matching session; matched notebooks get the session id, the session
status and a constructed UI URL, unmatched notebooks get
`session_id: null, status: "stopped", url: null`.  The object spread
`{...notebook, ...}` keeps every other property unchanged. -/
def mergeSessionsWithNotebooks (sessions : List SessionRecord)
    (notebooks : List Notebook) : List Notebook :=
  notebooks.map fun notebook =>
    match sessions.find? (fun s => sessionMatches notebook s) with
    | some session =>
      { notebook with
        session_id := some session.session_id
        status := some session.status
        url := some ("/notebooks/sessions/" ++ session.session_id ++ "/ui") }
    | none =>
      { notebook with
        session_id := none
        status := some "stopped"
        url := none }

/-- The matching predicate exactly as claim C1 states it: the session's
associated path equals the definition's filename, or has the definition's
filename as a suffix.  (Spec wording; for comparison with `sessionMatches`.) -/
def claimMatches (notebook : Notebook) (s : SessionRecord) : Bool :=
  s.notebook_path == notebook.filename ||
  strEndsWith s.notebook_path notebook.filename

/-- The merge step as claim C1 states it, with the claim's matching
predicate in place of the source's. -/
def mergeAsClaimStated (sessions : List SessionRecord)
    (notebooks : List Notebook) : List Notebook :=
  notebooks.map fun notebook =>
    match sessions.find? (fun s => claimMatches notebook s) with
    | some session =>
      { notebook with
        session_id := some session.session_id
        status := some session.status
        url := some ("/notebooks/sessions/" ++ session.session_id ++ "/ui") }
    | none =>
      { notebook with
        session_id := none
        status := some "stopped"
        url := none }

/-- The amended matching predicate: the session's associated path equals the
definition's filename, or equals the definition's path attribute, or has the
definition's filename as a suffix. -/
def claimMatchesAmended (notebook : Notebook) (s : SessionRecord) : Bool :=
  s.notebook_path == notebook.filename ||
  s.notebook_path == notebook.path ||
  strEndsWith s.notebook_path notebook.filename

/-- The merge step as amended: first session matching the amended predicate
wins; matched/unmatched field updates as the claim states them. -/
def mergeAsAmended (sessions : List SessionRecord)
    (notebooks : List Notebook) : List Notebook :=
  notebooks.map fun notebook =>
    match sessions.find? (fun s => claimMatchesAmended notebook s) with
    | some session =>
      { notebook with
        session_id := some session.session_id
        status := some session.status
        url := some ("/notebooks/sessions/" ++ session.session_id ++ "/ui") }
    | none =>
      { notebook with
        session_id := none
        status := some "stopped"
        url := none }

/-- A notebook definition whose filename and path are unrelated: its path
attribute equals a session's notebook_path while its filename is neither equal
to nor a suffix of that notebook_path. -/
def nbPathOnly : Notebook :=
  { filename := "a.py", path := "nb/other", size_bytes := 10
    modified_at := "2024-01-01", extra := [], session_id := none
    status := none, url := none }

/-- A session whose notebook_path equals `nbPathOnly.path` but does not
contain `nbPathOnly.filename` as a suffix. -/
def sessPathOnly : SessionRecord :=
  { session_id := "s9", notebook_path := "nb/other", status := "running" }

/-- Notebook definition "a.py" from the claim's concrete example. -/
def nbA : Notebook :=
  { filename := "a.py", path := "a.py", size_bytes := 1
    modified_at := "", extra := [], session_id := none
    status := none, url := none }

/-- Notebook definition "b.py" from the claim's concrete example. -/
def nbB : Notebook :=
  { filename := "b.py", path := "b.py", size_bytes := 2
    modified_at := "", extra := [], session_id := none
    status := none, url := none }

/-- Session record s1 from the claim's concrete example. -/
def sess1 : SessionRecord :=
  { session_id := "s1", notebook_path := "acct/a.py", status := "running" }

/-! ## Theorems for claims C1 and C10 -/

/-- C1 (counterexample): the merge step of the code does not pair definitions
only with sessions whose path equals or ends with the definition's filename.
With a definition whose path attribute is "nb/other" (filename "a.py") and a
session whose notebook_path is "nb/other", the claim's predicate rejects the
session — so under the claim the definition would be stopped with no session
id — yet the code pairs them and marks the definition running with session id
s9 and a session URL. -/
theorem C1_counterexample :
    claimMatches nbPathOnly sessPathOnly = false ∧
    mergeAsClaimStated [sessPathOnly] [nbPathOnly] =
      [{ nbPathOnly with session_id := none, status := some "stopped", url := none }] ∧
    mergeSessionsWithNotebooks [sessPathOnly] [nbPathOnly] =
      [{ nbPathOnly with
          session_id := some "s9"
          status := some "running"
          url := some "/notebooks/sessions/s9/ui" }] := by
  refine ⟨rfl, rfl, rfl⟩

/-- C1 (amended): the merge step pairs each definition with the first session
record whose associated path equals the definition's filename, equals the
definition's path attribute, or has the definition's filename as a suffix;
matched definitions carry that session's id and status and the URL
/notebooks/sessions/(session id)/ui, unmatched definitions carry status
stopped with no session id and no URL.  The claim's concrete a.py/b.py
example holds as stated. -/
theorem C1_merge_amended :
    (∀ (sessions : List SessionRecord) (notebooks : List Notebook),
        mergeSessionsWithNotebooks sessions notebooks =
          mergeAsAmended sessions notebooks) ∧
    mergeSessionsWithNotebooks [sess1] [nbA, nbB] =
      [{ nbA with
          session_id := some "s1"
          status := some "running"
          url := some "/notebooks/sessions/s1/ui" },
       { nbB with session_id := none, status := some "stopped", url := none }] := by
  refine ⟨fun sessions notebooks => rfl, rfl⟩

/-- C10: merging is a per-element map — it preserves the length and order of
the notebook list and, at every index, leaves every field other than
session_id, status and url (filename, path, size_bytes, modified_at and any
other carried attribute) unchanged, whatever the session list contains. -/
theorem C10_merge_frame :
    ∀ (sessions : List SessionRecord) (notebooks : List Notebook),
      (mergeSessionsWithNotebooks sessions notebooks).length = notebooks.length ∧
      ∀ i : Nat,
        ((mergeSessionsWithNotebooks sessions notebooks)[i]?).map
            (fun n => (n.filename, n.path, n.size_bytes, n.modified_at, n.extra)) =
          (notebooks[i]?).map
            (fun n => (n.filename, n.path, n.size_bytes, n.modified_at, n.extra)) := by
  intro sessions notebooks
  constructor
  · unfold mergeSessionsWithNotebooks
    exact List.length_map _ _
  · intro i
    unfold mergeSessionsWithNotebooks
    rw [List.getElem?_map]
    cases notebooks[i]? with
    | none => rfl
    | some nb =>
      cases h : sessions.find? (fun s => sessionMatches nb s) <;> simp [h]

/-! ## Route matcher: path templates, compiled patterns, parameter names

`Router._pathToRegex` turns a template into the anchored regex
`^template.replace(/\//g, "\\/").replace(/:(\w+)/g, "([^/]+)")$`.  For
templates made of plain characters (word characters, '/', ':', '-') the
resulting regex is a sequence of literal characters and capturing groups
`([^/]+)`; we represent it by a token list.  The two source regex passes
(`replace(/:(\w+)/g, ...)` and `match(/:(\w+)/g)`) scan the template left to
right, replacing each non-overlapping, maximal-munch occurrence of ':'
followed by one or more word characters; the scanners below implement exactly
that traversal. -/

/-- A token of the compiled pattern: a literal character or the capturing
group inserted for a placeholder. -/
inductive RTok
  | lit (c : Char)
  | grp
deriving DecidableEq, Repr

/-- JS regex word character, the class matched by a backslash-w atom. -/
def isWordChar (c : Char) : Bool :=
  c.isAlphanum || c == '_'

/-- Scanner state while traversing a template: outside any placeholder,
just after an unresolved ':', or inside a placeholder's word-character run. -/
inductive ScanMode
  | normal
  | pending
  | inWord
deriving DecidableEq, Repr

/-- Left-to-right scan producing the compiled token list of
`Router._pathToRegex` (main application source, lines 38-41). -/
def regexScan : ScanMode → List Char → List RTok
  | .normal, [] => []
  | .normal, c :: rest =>
    if c == ':' then regexScan .pending rest
    else .lit c :: regexScan .normal rest
  | .pending, [] => [.lit ':']
  | .pending, c :: rest =>
    if isWordChar c then .grp :: regexScan .inWord rest
    else if c == ':' then .lit ':' :: regexScan .pending rest
    else .lit ':' :: .lit c :: regexScan .normal rest
  | .inWord, [] => []
  | .inWord, c :: rest =>
    if isWordChar c then regexScan .inWord rest
    else if c == ':' then regexScan .pending rest
    else .lit c :: regexScan .normal rest

/-- Embedding of `Router._pathToRegex`: compile a template to its anchored
pattern, represented as the token list (an escaped slash matches '/'
literally, so the slash-escaping pass does not change match semantics). -/
def pathToRegex (path : String) : List RTok :=
  regexScan .normal path.data

/-- Left-to-right scan producing the placeholder names of
`Router._extractParamNames` (main application source, lines 47-50), i.e. the
captures of `path.match(/:(\w+)/g)` with the leading ':' sliced off.  The
second argument accumulates the current name's characters in reverse. -/
def nameScan : ScanMode → List Char → List Char → List String
  | .normal, _, [] => []
  | .normal, _, c :: rest =>
    if c == ':' then nameScan .pending [] rest
    else nameScan .normal [] rest
  | .pending, _, [] => []
  | .pending, _, c :: rest =>
    if isWordChar c then nameScan .inWord [c] rest
    else if c == ':' then nameScan .pending [] rest
    else nameScan .normal [] rest
  | .inWord, acc, [] => [String.mk acc.reverse]
  | .inWord, acc, c :: rest =>
    if isWordChar c then nameScan .inWord (c :: acc) rest
    else if c == ':' then String.mk acc.reverse :: nameScan .pending [] rest
    else String.mk acc.reverse :: nameScan .normal [] rest

/-- Embedding of `Router._extractParamNames`. -/
def extractParamNames (path : String) : List String :=
  nameScan .normal [] path.data

/-- Number of capturing groups in a compiled pattern. -/
def grpCount (ts : List RTok) : Nat :=
  ts.countP (fun t => match t with | .grp => true | _ => false)

/-- Characters for which the compiled "regex" really is a plain sequence of
literals and groups: word characters, '/', ':' and '-' carry no regex
metacharacter meaning in the position the compiler puts them. -/
def safeTemplateChar (c : Char) : Bool :=
  isWordChar c || c == '/' || c == ':' || c == '-'

/-- Anchored greedy matcher for a compiled pattern against a concrete path,
with explicit fuel (one unit per token suffices; the wrapper below supplies
it).  A group matches one or more non-slash characters; as in a backtracking
regex engine, longer captures are preferred. -/
def matchToksF : Nat → List RTok → List Char → Option (List String)
  | 0, _, _ => none
  | _ + 1, [], s => if s.isEmpty then some [] else none
  | f + 1, .lit c :: ts, s =>
    match s with
    | [] => none
    | x :: xs => if x == c then matchToksF f ts xs else none
  | f + 1, .grp :: ts, s =>
    ((List.range s.length).map (fun i => s.length - i)).findSome? fun k =>
      let pre := s.take k
      if pre.all (fun c => c != '/') then
        (matchToksF f ts (s.drop k)).map (fun caps => String.mk pre :: caps)
      else none

/-- The matcher with enough fuel for its pattern. -/
def matchToks (ts : List RTok) (s : List Char) : Option (List String) :=
  matchToksF (ts.length + 1) ts s

/-- Embedding of the loop body `route.paramNames.forEach((name, index) =>
params[name] = match[index + 1])` in `Router._matchRoute`: the i-th parameter
name is bound to the i-th capture if it exists, and to undefined (`none`)
otherwise. -/
def buildParams : List String → List String → List (String × Option String)
  | [], _ => []
  | n :: ns, caps => (n, caps.head?) :: buildParams ns caps.tail

/-! ## Theorem for claim C7 -/

/-- Counting helper: a compiled pattern has one group per extracted name; the
`.inWord` scanner state accounts for the group already emitted for the word
being read. -/
theorem grpCount_regexScan_eq (l : List Char) :
    ∀ (m : ScanMode) (acc : List Char),
      grpCount (regexScan m l) +
          (match m with | .inWord => 1 | _ => 0) =
        (nameScan m acc l).length := by
  induction l with
  | nil => intro m acc; cases m <;> simp [regexScan, nameScan, grpCount]
  | cons c rest ih =>
    intro m acc
    cases m with
    | normal =>
      by_cases hc : c == ':'
      · simpa [regexScan, nameScan, hc, grpCount] using ih .pending []
      · simpa [regexScan, nameScan, hc, grpCount] using ih .normal []
    | pending =>
      by_cases hw : isWordChar c
      · simpa [regexScan, nameScan, hw, grpCount] using ih .inWord [c]
      · by_cases hc : c == ':'
        · simpa [regexScan, nameScan, hw, hc, grpCount] using ih .pending []
        · simpa [regexScan, nameScan, hw, hc, grpCount] using ih .normal []
    | inWord =>
      by_cases hw : isWordChar c
      · simpa [regexScan, nameScan, hw, grpCount] using ih .inWord (c :: acc)
      · by_cases hc : c == ':'
        · simpa [regexScan, nameScan, hw, hc, grpCount] using ih .pending []
        · simpa [regexScan, nameScan, hw, hc, grpCount] using ih .normal []

/-- A successful match captures exactly one substring per group. -/
theorem matchToksF_length (f : Nat) :
    ∀ (ts : List RTok) (s : List Char) (caps : List String),
      matchToksF f ts s = some caps → caps.length = grpCount ts := by
  induction f with
  | zero => intro ts s caps h; simp [matchToksF] at h
  | succ f ih =>
    intro ts s caps h
    cases ts with
    | nil =>
      simp [matchToksF] at h
      rcases h with ⟨-, rfl⟩
      simp [grpCount]
    | cons t ts' =>
      cases t with
      | lit c =>
        cases s with
        | nil => simp [matchToksF] at h
        | cons x xs =>
          simp only [matchToksF] at h
          by_cases hx : x == c
          · simp [hx] at h
            simpa [grpCount] using ih ts' xs caps h
          · simp [hx] at h
      | grp =>
        simp only [matchToksF] at h
        obtain ⟨k, -, hk⟩ := List.exists_of_findSome?_eq_some h
        by_cases hall : (s.take k).all (fun c => c != '/')
        · simp only [hall, if_true] at hk
          rcases Option.map_eq_some'.mp hk with ⟨caps', hcaps', rfl⟩
          simp [grpCount, ih ts' (s.drop k) caps' hcaps']
        · simp [hall] at hk

/-- Helper: when one capture exists per name, the forEach loop binds the i-th
name to the i-th capture, in template order. -/
theorem buildParams_eq_zip :
    ∀ (names caps : List String), names.length = caps.length →
      buildParams names caps = names.zip (caps.map some) := by
  intro names
  induction names with
  | nil => intro caps _; simp [buildParams]
  | cons n ns ih =>
    intro caps hlen
    cases caps with
    | nil => simp at hlen
    | cons c cs =>
      simp only [List.length_cons, Nat.succ.injEq] at hlen
      simp [buildParams, ih cs hlen]

/-- C7: for every template made of plain characters (the template language of
the spec: literal segments and :name placeholders, no regex metacharacters)
with pairwise-distinct placeholder names, the compiled pattern has exactly one
capturing group per declared parameter name, and whenever the pattern accepts
a concrete path the parameter mapping built by `Router._matchRoute` binds the
i-th placeholder name, in template order, to the i-th captured substring. -/
theorem C7_params_in_template_order (tpl : String)
    (_hsafe : ∀ c ∈ tpl.data, safeTemplateChar c = true)
    (_hnodup : (extractParamNames tpl).Nodup)
    (p : String) (caps : List String) :
    grpCount (pathToRegex tpl) = (extractParamNames tpl).length ∧
    (matchToks (pathToRegex tpl) p.data = some caps →
      caps.length = (extractParamNames tpl).length ∧
      buildParams (extractParamNames tpl) caps =
        (extractParamNames tpl).zip (caps.map some)) := by
  have hcount : grpCount (pathToRegex tpl) = (extractParamNames tpl).length := by
    simpa [pathToRegex, extractParamNames] using
      grpCount_regexScan_eq tpl.data .normal []
  refine ⟨hcount, fun hmatch => ?_⟩
  have hlen : caps.length = grpCount (pathToRegex tpl) :=
    matchToksF_length _ _ _ _ hmatch
  refine ⟨hlen.trans hcount, ?_⟩
  exact buildParams_eq_zip _ _ (by omega)

/-- Witness for C7 at the registered template "/app/notebooks/:id" and the
concrete path "/app/notebooks/42": the template is plain, has the single
placeholder name "id", its pattern has one group, the matcher captures "42",
and the parameter mapping is [(id, 42)]. -/
theorem C7_params_witness :
    (∀ c ∈ "/app/notebooks/:id".data, safeTemplateChar c = true) ∧
    (extractParamNames "/app/notebooks/:id").Nodup ∧
    extractParamNames "/app/notebooks/:id" = ["id"] ∧
    matchToks (pathToRegex "/app/notebooks/:id") "/app/notebooks/42".data =
      some ["42"] ∧
    grpCount (pathToRegex "/app/notebooks/:id") = 1 ∧
    buildParams (extractParamNames "/app/notebooks/:id") ["42"] =
      [("id", some "42")] := by
  have h := C7_params_in_template_order "/app/notebooks/:id"
    (by decide) (by decide) "/app/notebooks/42" ["42"]
  refine ⟨by decide, by decide, by decide, by decide, ?_, ?_⟩
  · have := h.1
    simpa [extractParamNames] using this
  · have := (h.2 (by decide)).2
    simpa [extractParamNames] using this

/-! ## Navigation controller: Router.navigate / _handleRoute / _handle404

State and effects modelled explicitly: browser history is the list of entries
(`pushState` appends, `replaceState` swaps the last entry), `currentRoute` is
the committed navigation state, and everything the router does is also
recorded in an event trace.  Before hooks are modelled by the value each one
resolves to for the call under analysis (the loop in `navigate` stops at the
first hook whose result is strictly equal to false); after hooks by their
count, since the router only invokes them in order. -/

/-- Route options as registered by the application (requireAuth, title). -/
structure RouteOptions where
  requireAuth : Bool
  title : String
deriving DecidableEq, Repr

/-- Behavior of a route handler when invoked: it settles normally or it
throws, with the given error message. -/
inductive HandlerBehavior
  | returns
  | throws (e : String)
deriving DecidableEq, Repr

/-- A registered route: template, pattern and parameter names compiled at
registration (`Router.register`), the handler's behavior when invoked
(normal return or thrown error message), and the options object. -/
structure RouteDef where
  path : String
  pattern : List RTok
  paramNames : List String
  handlerResult : HandlerBehavior
  options : RouteOptions
deriving DecidableEq

/-- Embedding of `Router.register`: appends a route compiled from the
template to the route table. -/
def registerRoute (routes : List RouteDef) (path : String)
    (handlerResult : HandlerBehavior) (options : RouteOptions) :
    List RouteDef :=
  routes ++ [{ path := path
               pattern := pathToRegex path
               paramNames := extractParamNames path
               handlerResult := handlerResult
               options := options }]

/-- Embedding of `Router._matchRoute` (lines 56-68): first route whose
pattern accepts the path wins; the parameter mapping is built name by name
from the captures. -/
def matchRoute (routes : List RouteDef) (p : String) :
    Option (RouteDef × List (String × Option String)) :=
  routes.findSome? fun route =>
    match matchToks route.pattern p.data with
    | some caps => some (route, buildParams route.paramNames caps)
    | none => none

/-- The committed navigation state `this.currentRoute`:
path, extracted params, route options. -/
structure CurrentRoute where
  path : String
  params : List (String × Option String)
  options : RouteOptions
deriving DecidableEq

/-- Router-owned mutable state: browser history plus currentRoute. -/
structure NavState where
  history : List String
  currentRoute : Option CurrentRoute
deriving DecidableEq

/-- Router configuration fixed for the call under analysis: the route table,
the value each before hook resolves to, and the number of after hooks. -/
structure RouterCfg where
  routes : List RouteDef
  beforeResults : List JSValue
  afterCount : Nat
deriving DecidableEq

/-- Observable router actions, in execution order. -/
inductive NavEvent
  | histPush (p : String)
  | histReplace (p : String)
  | handlerRun (p : String) (params : List (String × Option String))
  | handlerErrorLogged (e : String)
  | warn404 (p : String)
  | afterHook (i : Nat) (p : String)
  | fuelExhausted
deriving DecidableEq

/-- The before-hook loop of `navigate` (lines 93-98) cancels iff some hook's
result is strictly equal (`===`) to the boolean false. -/
def hasVeto (results : List JSValue) : Bool :=
  results.any (fun v => v == JSValue.bool false)

/-- Browser history update (lines 101-105): replaceState swaps the current
entry, pushState appends a new one. -/
def histUpdate (h : List String) (p : String) (repl : Bool) : List String :=
  if repl then h.dropLast ++ [p] else h ++ [p]

/-- The history event recorded for a push or replace. -/
def histEvent (p : String) (repl : Bool) : NavEvent :=
  if repl then .histReplace p else .histPush p

/-- Events for the after-hook loop (lines 111-113): each registered after
hook runs once, in order, receiving the path. -/
def afterEvents (cfg : RouterCfg) (p : String) : List NavEvent :=
  (List.range cfg.afterCount).map (fun i => .afterHook i p)

/-- Embedding of `Router._handleRoute` (lines 120-136), parameterized by the
navigate continuation used by `Router._handle404` (lines 142-145), which
warns and calls `this.navigate("/app", true)`.  On a match, currentRoute is
committed before the handler runs; a handler exception is caught and logged
(`_handleError`), never propagated. -/
def handleRouteWith
    (nav : NavState → String → Bool → NavState × List NavEvent)
    (routes : List RouteDef) (st : NavState) (path : String) :
    NavState × List NavEvent :=
  match matchRoute routes path with
  | some (route, params) =>
    let st' := { st with currentRoute := some ⟨path, params, route.options⟩ }
    match route.handlerResult with
    | .returns => (st', [.handlerRun path params])
    | .throws e => (st', [.handlerRun path params, .handlerErrorLogged e])
  | none =>
    let r := nav st "/app" true
    (r.1, .warn404 path :: r.2)

/-- Embedding of `Router.navigate(path, replace)` (lines 91-114), with fuel
bounding the recursion through `_handle404` (the source has no such bound;
`fuelExhausted` marks a truncated run).  Before hooks run first and a strict
false vetoes with an early return; then the history is updated, the route
handled, and every after hook run. -/
def navigateF : Nat → RouterCfg → NavState → String → Bool →
    NavState × List NavEvent
  | 0, _, st, _, _ => (st, [.fuelExhausted])
  | f + 1, cfg, st, path, repl =>
    if hasVeto cfg.beforeResults then
      (st, [])
    else
      let st1 := { st with history := histUpdate st.history path repl }
      let r := handleRouteWith
        (fun s p b => navigateF f cfg s p b) cfg.routes st1 path
      (r.1, histEvent path repl :: (r.2 ++ afterEvents cfg path))

/-- Whether an event is a no-match (404) redirect warning. -/
def isWarn404 : NavEvent → Bool
  | .warn404 _ => true
  | _ => false

/-- Number of no-match (404) redirect warnings in a trace. -/
def count404 (evs : List NavEvent) : Nat :=
  evs.countP isWarn404

/-- History events are not 404 warnings. -/
theorem isWarn404_histEvent (p : String) (repl : Bool) :
    isWarn404 (histEvent p repl) = false := by
  cases repl <;> rfl

/-- After-hook events are never 404 warnings. -/
theorem count404_afterEvents (cfg : RouterCfg) (p : String) :
    count404 (afterEvents cfg p) = 0 := by
  rw [count404, afterEvents, List.countP_eq_zero]
  intro e he
  rcases List.mem_map.mp he with ⟨i, -, rfl⟩
  simp [isWarn404]

/-! ## Theorems for claims C2, C9, C5, C4 -/

/-- C2: if any before hook resolves to a veto (strict false), navigate
returns with no side effects: the history is neither pushed nor replaced,
currentRoute is unchanged, no route handler runs, and no after hook executes
(the event trace is empty and the state is returned untouched). -/
theorem C2_veto_no_side_effects (f : Nat) (cfg : RouterCfg) (st : NavState)
    (path : String) (repl : Bool)
    (hveto : hasVeto cfg.beforeResults = true) :
    (navigateF (f + 1) cfg st path repl).1.history = st.history ∧
    (navigateF (f + 1) cfg st path repl).1.currentRoute = st.currentRoute ∧
    (navigateF (f + 1) cfg st path repl).2 = [] := by
  simp [navigateF, hveto]

/-- Witness for C2: one before hook resolving to false vetoes a navigate
call on a concrete router, leaving state and trace empty. -/
theorem C2_veto_witness :
    hasVeto [JSValue.bool false] = true ∧
    ((navigateF 1
        { routes := registerRoute [] "/app/notebooks" .returns ⟨true, "Notebooks"⟩
          beforeResults := [JSValue.bool false]
          afterCount := 1 }
        { history := ["/app"], currentRoute := none } "/app/notebooks" false).1.history
        = ["/app"] ∧
      (navigateF 1
        { routes := registerRoute [] "/app/notebooks" .returns ⟨true, "Notebooks"⟩
          beforeResults := [JSValue.bool false]
          afterCount := 1 }
        { history := ["/app"], currentRoute := none } "/app/notebooks" false).1.currentRoute
        = none ∧
      (navigateF 1
        { routes := registerRoute [] "/app/notebooks" .returns ⟨true, "Notebooks"⟩
          beforeResults := [JSValue.bool false]
          afterCount := 1 }
        { history := ["/app"], currentRoute := none } "/app/notebooks" false).2
        = []) := by
  refine ⟨by decide, C2_veto_no_side_effects 0 _ _ _ _ (by decide)⟩

/-- C9: a before hook cancels navigation only when its result is strictly
equal to the boolean false; if every hook resolves to any other value
(undefined, null, 0, empty string, any truthy value, ...), navigation
proceeds: the history entry is pushed or replaced and the route is handled,
then the after hooks run. -/
theorem C9_only_strict_false_cancels (f : Nat) (cfg : RouterCfg)
    (st : NavState) (path : String) (repl : Bool)
    (happrove : ∀ v ∈ cfg.beforeResults, v ≠ JSValue.bool false) :
    navigateF (f + 1) cfg st path repl =
      (let st1 := { st with history := histUpdate st.history path repl }
       let r := handleRouteWith
         (fun s p b => navigateF f cfg s p b) cfg.routes st1 path
       (r.1, histEvent path repl :: (r.2 ++ afterEvents cfg path))) ∧
    (navigateF (f + 1) cfg st path repl).2.head? =
      some (histEvent path repl) := by
  have hv : hasVeto cfg.beforeResults = false := by
    rw [hasVeto, List.any_eq_false]
    intro v hv
    simpa using happrove v hv
  exact ⟨by simp [navigateF, hv], by simp [navigateF, hv]⟩

/-- Witness for C9: hooks resolving to undefined, null, 0 and the empty
string all approve; navigation on a concrete router pushes the history entry
and runs the handler. -/
theorem C9_approval_witness :
    (∀ v ∈ [JSValue.undefined, JSValue.null, JSValue.num 0, JSValue.str ""],
        v ≠ JSValue.bool false) ∧
    (navigateF 1
        { routes := registerRoute [] "/app/notebooks" .returns ⟨true, "Notebooks"⟩
          beforeResults := [JSValue.undefined, JSValue.null, JSValue.num 0,
                            JSValue.str ""]
          afterCount := 1 }
        { history := ["/app"], currentRoute := none } "/app/notebooks" false).2.head?
      = some (NavEvent.histPush "/app/notebooks") := by
  have h := C9_only_strict_false_cancels 0
    { routes := registerRoute [] "/app/notebooks" .returns ⟨true, "Notebooks"⟩
      beforeResults := [JSValue.undefined, JSValue.null, JSValue.num 0,
                        JSValue.str ""]
      afterCount := 1 }
    { history := ["/app"], currentRoute := none } "/app/notebooks" false
    (by decide)
  exact ⟨by decide, by simpa [histEvent] using h.2⟩

/-- C5: when all before hooks approve and the path matches a route whose
handler throws, the exception is contained: navigate still returns normally
with currentRoute committed to the resolved route (path, extracted params,
options), the error is logged, and every registered after hook runs after
the handler settles. -/
theorem C5_handler_error_contained (f : Nat) (cfg : RouterCfg)
    (st : NavState) (path : String) (repl : Bool)
    (route : RouteDef) (params : List (String × Option String)) (e : String)
    (happrove : hasVeto cfg.beforeResults = false)
    (hmatch : matchRoute cfg.routes path = some (route, params))
    (hthrow : route.handlerResult = .throws e) :
    (navigateF (f + 1) cfg st path repl).1.currentRoute =
      some ⟨path, params, route.options⟩ ∧
    (navigateF (f + 1) cfg st path repl).2 =
      histEvent path repl ::
        ([.handlerRun path params, .handlerErrorLogged e] ++
          afterEvents cfg path) := by
  constructor <;> simp [navigateF, happrove, handleRouteWith, hmatch, hthrow]

/-- Witness for C5: a registered route at "/app/settings" whose handler
throws "boom"; navigating there commits the route and the trace shows the
push, the handler run, the contained logged error, then the after hook. -/
theorem C5_handler_error_witness :
    hasVeto [JSValue.bool true] = false ∧
    matchRoute (registerRoute [] "/app/settings" (.throws "boom") ⟨true, "Settings"⟩)
        "/app/settings" =
      some ({ path := "/app/settings"
              pattern := pathToRegex "/app/settings"
              paramNames := extractParamNames "/app/settings"
              handlerResult := .throws "boom"
              options := ⟨true, "Settings"⟩ }, []) ∧
    (navigateF 1
        { routes := registerRoute [] "/app/settings" (.throws "boom") ⟨true, "Settings"⟩
          beforeResults := [JSValue.bool true]
          afterCount := 1 }
        { history := ["/app"], currentRoute := none } "/app/settings" false).1.currentRoute
      = some ⟨"/app/settings", [], ⟨true, "Settings"⟩⟩ ∧
    (navigateF 1
        { routes := registerRoute [] "/app/settings" (.throws "boom") ⟨true, "Settings"⟩
          beforeResults := [JSValue.bool true]
          afterCount := 1 }
        { history := ["/app"], currentRoute := none } "/app/settings" false).2
      = [NavEvent.histPush "/app/settings",
         NavEvent.handlerRun "/app/settings" [],
         NavEvent.handlerErrorLogged "boom",
         NavEvent.afterHook 0 "/app/settings"] := by
  have h := C5_handler_error_contained 0
    { routes := registerRoute [] "/app/settings" (.throws "boom") ⟨true, "Settings"⟩
      beforeResults := [JSValue.bool true]
      afterCount := 1 }
    { history := ["/app"], currentRoute := none } "/app/settings" false
    { path := "/app/settings"
      pattern := pathToRegex "/app/settings"
      paramNames := extractParamNames "/app/settings"
      handlerResult := .throws "boom"
      options := ⟨true, "Settings"⟩ } [] "boom"
    (by decide) (by decide) rfl
  exact ⟨by decide, by decide, h.1, by simpa [afterEvents, histEvent] using h.2⟩

/-- C4: the code has no guard against the default path itself failing to
match.  For any route table in which neither the navigated path nor the
default "/app" is registered (hooks approving), every unit of fuel produces
one more no-match redirect: the 404 handler calls navigate("/app", true),
which 404s again, without bound.  The count of no-match warnings equals the
whole fuel budget, so the chain of redirects never terminates on its own. -/
theorem C4_redirect_loop (f : Nat) :
    ∀ (cfg : RouterCfg) (st : NavState) (path : String) (repl : Bool),
      hasVeto cfg.beforeResults = false →
      (∀ q : String, matchRoute cfg.routes q = none) →
      count404 (navigateF f cfg st path repl).2 = f := by
  induction f with
  | zero => intro cfg st path repl _ _; simp [navigateF, count404, isWarn404]
  | succ f ih =>
    intro cfg st path repl hv hnone
    have hrec := ih cfg { st with history := histUpdate st.history path repl }
      "/app" true hv hnone
    have hstep : (navigateF (f + 1) cfg st path repl).2 =
        histEvent path repl ::
          ((NavEvent.warn404 path ::
              (navigateF f cfg
                { st with history := histUpdate st.history path repl }
                "/app" true).2) ++
            afterEvents cfg path) := by
      simp [navigateF, hv, handleRouteWith, hnone]
    rw [hstep]
    have hafter := count404_afterEvents cfg path
    simp only [count404] at hrec hafter ⊢
    simp [List.countP_cons, List.countP_append, isWarn404_histEvent,
      isWarn404, hrec, hafter]
    cases repl <;> rfl

/-- Witness for C4: with an empty route table (so the default path "/app" is
itself unregistered), navigating to "/nope" with fuel 3 warns three times —
the redirect to the default re-triggers a no-match redirect each time. -/
theorem C4_redirect_loop_witness :
    hasVeto ([] : List JSValue) = false ∧
    (∀ q : String, matchRoute ([] : List RouteDef) q = none) ∧
    count404 (navigateF 3 ⟨[], [], 0⟩
        { history := [], currentRoute := none } "/nope" false).2 = 3 := by
  refine ⟨by decide, fun q => rfl, ?_⟩
  exact C4_redirect_loop 3 ⟨[], [], 0⟩
    { history := [], currentRoute := none } "/nope" false (by decide)
    (fun q => rfl)

/-! ## Transition executor: NotebooksView._startNotebook / _stopNotebook

Each function is modelled as the ordered list of observable effects it
performs (progress-indicator updates, API calls, timer waits, toasts, data
refreshes, scheduled DOM restores), together with the JavaScript exception,
if any, that escapes the function.  Success or failure of the one real API
call is a parameter; the fixed timers always resolve. -/

/-- Observable effects of a start/stop transition, in execution order. -/
inductive NbEffect
  | progressShown
  | setStep (n : Nat)
  | apiCreateSession (notebookId : String)
  | apiTerminateSession (sessionId : String)
  | sleep (ms : Nat)
  | progressComplete
  | progressError (step : Nat)
  | toastSuccess (notebookId : String)
  | toastError (notebookId : String)
  | toastWarning (notebookId : String)
  | fetchNotebooks (silent : Bool)
  | updateCards
  | scheduleRestore (ms : Nat)
deriving DecidableEq, Repr

/-- A JavaScript runtime error escaping a transition function. -/
inductive JsError
  | referenceError (name : String)
deriving DecidableEq, Repr

/-- Embedding of `NotebooksView._startNotebook` (notebooks.js lines
738-804).  `cardExists` says whether the notebook card is in the DOM (the
`if (card)` tests); `createFails` says whether `api.createSession` rejects.
When the card exists, `const originalContent` is declared inside the
`if (card)` block before the try (line 756), so it is block-scoped there; the
catch block's condition `actionsDiv && originalContent` (line 796) then reads
an undeclared identifier and throws a ReferenceError after the error flag and
the failure toast, so the scheduled restore (line 797-800) is never reached.
When the card does not exist, the catch's outer `if (card)` is false and the
identifier is never read. -/
def startNotebook (notebookId : String) (cardExists createFails : Bool) :
    List NbEffect × Option JsError :=
  let pre : List NbEffect :=
    if cardExists then [.progressShown, .setStep 0] else []
  if createFails then
    let evs := pre ++ [.setStep 0, .apiCreateSession notebookId,
      .progressError 0, .toastError notebookId]
    if cardExists then
      (evs, some (.referenceError "originalContent"))
    else
      (evs, none)
  else
    (pre ++ [.setStep 0, .apiCreateSession notebookId,
      .setStep 1, .sleep 1000, .setStep 2, .sleep 1500, .setStep 3,
      .progressComplete, .toastSuccess notebookId,
      .fetchNotebooks true, .updateCards], none)

/-- Embedding of `NotebooksView._stopNotebook` (notebooks.js lines 821-884).
`sessionId?` is the merged notebook's session_id (the early-return warning
fires when it is absent); `cardExists` as above; `terminateFails` says
whether `api.terminateSession` rejects.  Here `originalContent` is a `let`
declared in function scope (line 839), so the error path correctly schedules
the restore of the original controls after the fixed 2000 ms delay when the
card exists. -/
def stopNotebook (notebookId : String) (sessionId? : Option String)
    (cardExists terminateFails : Bool) : List NbEffect × Option JsError :=
  match sessionId? with
  | none => ([.toastWarning notebookId], none)
  | some sid =>
    let pre : List NbEffect :=
      if cardExists then [.progressShown, .setStep 0] else []
    if terminateFails then
      (pre ++ [.setStep 0, .apiTerminateSession sid,
        .progressError 0, .toastError notebookId] ++
        (if cardExists then [.scheduleRestore 2000] else []), none)
    else
      (pre ++ [.setStep 0, .apiTerminateSession sid,
        .setStep 1, .sleep 500, .setStep 2,
        .progressComplete, .toastSuccess notebookId,
        .fetchNotebooks true, .updateCards], none)

/-! ## Theorems for claims C3 and C6 -/

/-- C3 (counterexample): a failed stop transition is a terminal failure case
in which the executor performs no reconciliation tick at all — the trace of
`stop` with a rejected terminate call contains no fetch of notebooks or
sessions (neither silent nor loud) and no card update; it only flags the
step, toasts the failure and schedules the restore. -/
theorem C3_counterexample :
    (stopNotebook "a.py" (some "s1") true true).1 =
      [.progressShown, .setStep 0, .setStep 0, .apiTerminateSession "s1",
       .progressError 0, .toastError "a.py", .scheduleRestore 2000] ∧
    ((stopNotebook "a.py" (some "s1") true true).1.contains
        (NbEffect.fetchNotebooks true)) = false ∧
    ((stopNotebook "a.py" (some "s1") true true).1.contains
        (NbEffect.fetchNotebooks false)) = false ∧
    ((stopNotebook "a.py" (some "s1") true true).1.contains
        NbEffect.updateCards) = false := by
  refine ⟨rfl, rfl, rfl, rfl⟩

/-- C3 (amended): only the successful terminal cases of start(id) and
stop(id) trigger the immediate silent reconciliation tick (a silent re-fetch
followed by a card update) before the transition finishes; in every failure
terminal case no reconciliation tick occurs (the failure path flags the
step, toasts, and — where reachable — schedules the restore instead), and the
no-session early return of stop performs no tick either. -/
theorem C3_silent_tick_on_success_only (id sid : String) (card : Bool) :
    ([NbEffect.fetchNotebooks true, NbEffect.updateCards].isSuffixOf
        (startNotebook id card false).1) = true ∧
    ([NbEffect.fetchNotebooks true, NbEffect.updateCards].isSuffixOf
        (stopNotebook id (some sid) card false).1) = true ∧
    (∀ b : Bool,
      ((startNotebook id card true).1.contains (NbEffect.fetchNotebooks b)) = false ∧
      ((stopNotebook id (some sid) card true).1.contains (NbEffect.fetchNotebooks b)) = false ∧
      ((stopNotebook id none card true).1.contains (NbEffect.fetchNotebooks b)) = false) ∧
    ((startNotebook id card true).1.contains NbEffect.updateCards) = false ∧
    ((stopNotebook id (some sid) card true).1.contains NbEffect.updateCards) = false := by
  cases card <;>
    exact ⟨rfl, rfl, fun b => ⟨rfl, rfl, rfl⟩, rfl, rfl⟩

/-- C6: at the failing input — a create-session rejection for a notebook
whose card is displayed — the code does flag the failing step (step 0) and
surface the failure toast, but then throws a ReferenceError reading the
block-scoped `originalContent` in the catch, so the restore of the original
action controls is never scheduled: no 2000 ms restore timer appears in the
trace, contradicting the claim's restored-after-2-seconds behavior (which
the sibling `_stopNotebook` implements correctly). -/
theorem C6_start_error_restore_never_runs :
    startNotebook "a.py" true true =
      ([.progressShown, .setStep 0, .setStep 0, .apiCreateSession "a.py",
        .progressError 0, .toastError "a.py"],
       some (.referenceError "originalContent")) ∧
    ((startNotebook "a.py" true true).1.contains (NbEffect.scheduleRestore 2000)) = false ∧
    ((startNotebook "a.py" true true).1.contains (NbEffect.progressError 0)) = true ∧
    ((startNotebook "a.py" true true).1.contains (NbEffect.toastError "a.py")) = true := by
  refine ⟨rfl, rfl, rfl, rfl⟩

/-! ## Search, status filter and sort: NotebooksView._applyFilters

`_applyFilters` (notebooks.js lines 133-169) copies the merged notebook
list, applies the case-insensitive substring search (skipped for the falsy
empty query), the status filter (skipped for "all"), and then sorts in place
by lowercased filename with a comparator that returns 1 or -1 and never 0.
ECMAScript `Array.prototype.sort` is a stable sort placing `a` before `b`
whenever the comparator result is non-positive; since that relation here is a
total preorder, the stable result is uniquely determined and Mathlib's stable
`insertionSort` computes it.  JS `<` / `>` on strings is lexicographic
comparison of code units, embedded below as `lexLt` on character lists. -/

/-- Whether `needle` occurs as a contiguous subsequence of `hay` (embedding
of JS `String.prototype.includes`, on character lists). -/
def containsSeq (needle : List Char) : List Char → Bool
  | [] => needle.isEmpty
  | c :: rest => needle.isPrefixOf (c :: rest) || containsSeq needle rest

/-- Embedding of `hay.includes(needle)` on strings. -/
def strIncludes (hay needle : String) : Bool :=
  containsSeq needle.data hay.data

/-- Embedding of JS `String.prototype.toLowerCase` (character-wise lowering;
the filenames involved are ASCII).  Defined over the character list so that
it evaluates inside the kernel. -/
def toLowerStr (s : String) : String :=
  String.mk (s.data.map Char.toLower)

/-- Lexicographic strict comparison of character lists: the embedding of the
JS `<` operator on strings. -/
def lexLt : List Char → List Char → Bool
  | [], [] => false
  | [], _ :: _ => true
  | _ :: _, [] => false
  | a :: as, b :: bs =>
    if a < b then true
    else if b < a then false
    else lexLt as bs

/-- The sort key of `_applyFilters`: the lowercased filename, as characters. -/
def sortKey (n : Notebook) : List Char :=
  n.filename.data.map Char.toLower

/-- The comparator of `_applyFilters` (notebooks.js lines 157-166): ascending
returns 1 when the first lowercased filename is the greater and -1 otherwise;
descending returns 1 when it is the smaller and -1 otherwise; it never
returns 0. -/
def compareByName (sortOrder : String) (a b : Notebook) : Int :=
  let aVal := sortKey a
  let bVal := sortKey b
  if sortOrder == "asc" then
    if lexLt bVal aVal then 1 else -1
  else
    if lexLt aVal bVal then 1 else -1

/-- The ordering relation induced by the comparator: `a` may be placed
before `b` when the comparator result is non-positive. -/
def jsLe (sortOrder : String) (a b : Notebook) : Prop :=
  compareByName sortOrder a b ≤ 0

instance (sortOrder : String) : DecidableRel (jsLe sortOrder) := fun a b =>
  inferInstanceAs (Decidable (compareByName sortOrder a b ≤ 0))

/-- The two filter passes of `_applyFilters` (lines 136-154): the
case-insensitive substring filter on filename, skipped when the query is the
(falsy) empty string, then the status filter over all/active/idle. -/
def filterStep (searchQuery filterStatus : String)
    (notebooks : List Notebook) : List Notebook :=
  let filtered := notebooks
  let filtered :=
    if searchQuery == "" then filtered
    else filtered.filter
      (fun n => strIncludes (toLowerStr n.filename) (toLowerStr searchQuery))
  if filterStatus == "all" then filtered
  else filtered.filter (fun n =>
    if filterStatus == "active" then n.status == some "running"
    else if filterStatus == "idle" then !(n.status == some "running")
    else true)

/-- Embedding of `NotebooksView._applyFilters`: filter passes, then the
stable sort under the comparator for the given sort order. -/
def applyFilters (searchQuery filterStatus sortOrder : String)
    (notebooks : List Notebook) : List Notebook :=
  List.insertionSort (jsLe sortOrder) (filterStep searchQuery filterStatus notebooks)

/-! ## Order lemmas for the comparator, and the theorems for claim C8 -/

/-- Lexicographic comparison is asymmetric. -/
theorem lexLt_asymm : ∀ (a b : List Char),
    lexLt a b = true → lexLt b a = false := by
  intro a
  induction a with
  | nil =>
    intro b h
    cases b with
    | nil => simp [lexLt] at h
    | cons y ys => rfl
  | cons x xs ih =>
    intro b h
    cases b with
    | nil => simp [lexLt] at h
    | cons y ys =>
      simp only [lexLt] at h ⊢
      by_cases hxy : x < y
      · simp [hxy, asymm hxy]
      · by_cases hyx : y < x
        · simp [hxy, hyx] at h
        · simp only [hxy, hyx, if_false] at h ⊢
          exact ih ys h

/-- The non-strict relation induced by `lexLt` is transitive. -/
theorem lexLt_le_trans : ∀ (c b a : List Char),
    lexLt b a = false → lexLt c b = false → lexLt c a = false := by
  intro c
  induction c with
  | nil =>
    intro b a h1 h2
    cases b with
    | nil =>
      cases a with
      | nil => rfl
      | cons x xs => simp [lexLt] at h1
    | cons y ys => simp [lexLt] at h2
  | cons z zs ih =>
    intro b a h1 h2
    cases b with
    | nil =>
      cases a with
      | nil => rfl
      | cons x xs => simp [lexLt] at h1
    | cons y ys =>
      cases a with
      | nil => rfl
      | cons x xs =>
        simp only [lexLt] at h1 h2 ⊢
        by_cases hyx : y < x
        · simp [hyx] at h1
        · by_cases hzy : z < y
          · simp [hzy] at h2
          · have hzx : ¬ z < x := fun h =>
              hzy (lt_of_lt_of_le h (le_of_not_lt hyx))
            by_cases hxy : x < y
            · have hxz : x < z := lt_of_lt_of_le hxy (le_of_not_lt hzy)
              simp [hzx, hxz]
            · by_cases hyz : y < z
              · have hxz : x < z := lt_of_le_of_lt (le_of_not_lt hyx) hyz
                simp [hzx, hxz]
              · have hxeq : x = y := le_antisymm (le_of_not_lt hyx) (le_of_not_lt hxy)
                have hyeq : y = z := le_antisymm (le_of_not_lt hzy) (le_of_not_lt hyz)
                subst hxeq; subst hyeq
                simp only [lt_irrefl, if_false] at h1 h2 ⊢
                exact ih ys xs h1 h2

/-- Two lists neither of which lexicographically precedes the other are
equal. -/
theorem lexLt_antisymm_eq : ∀ (a b : List Char),
    lexLt a b = false → lexLt b a = false → a = b := by
  intro a
  induction a with
  | nil =>
    intro b h1 _
    cases b with
    | nil => rfl
    | cons y ys => simp [lexLt] at h1
  | cons x xs ih =>
    intro b h1 h2
    cases b with
    | nil => simp [lexLt] at h2
    | cons y ys =>
      simp only [lexLt] at h1 h2
      by_cases hxy : x < y
      · simp [hxy] at h1
      · by_cases hyx : y < x
        · simp [hyx] at h2
        · have hxeq : x = y := le_antisymm (le_of_not_lt hyx) (le_of_not_lt hxy)
          subst hxeq
          simp only [lt_irrefl, if_false] at h1 h2
          rw [ih ys h1 h2]

/-- Ascending comparator acceptance: the first key does not exceed the
second. -/
theorem jsLe_asc_iff (a b : Notebook) :
    jsLe "asc" a b ↔ lexLt (sortKey b) (sortKey a) = false := by
  unfold jsLe compareByName
  cases h : lexLt (sortKey b) (sortKey a) <;> simp [h]

/-- Descending comparator acceptance: the second key does not exceed the
first. -/
theorem jsLe_desc_iff (a b : Notebook) :
    jsLe "desc" a b ↔ lexLt (sortKey a) (sortKey b) = false := by
  unfold jsLe compareByName
  have hso : (("desc" : String) == "asc") = false := by decide
  cases h : lexLt (sortKey a) (sortKey b) <;> simp [h, hso]

/-- The filter passes only remove elements. -/
theorem filterStep_sublist (searchQuery filterStatus : String)
    (l : List Notebook) : (filterStep searchQuery filterStatus l).Sublist l := by
  unfold filterStep
  split <;> split
  · exact List.Sublist.refl l
  · exact List.filter_sublist l
  · exact List.filter_sublist l
  · exact (List.filter_sublist _).trans (List.filter_sublist l)

/-- Two sorted lists that are permutations of each other and whose relation
is antisymmetric on their members are equal. -/
theorem eq_of_perm_of_pairwise {α : Type _} {R : α → α → Prop} :
    ∀ {l₁ l₂ : List α}, l₁.Perm l₂ → l₁.Pairwise R → l₂.Pairwise R →
      (∀ a ∈ l₁, ∀ b ∈ l₁, R a b → R b a → a = b) → l₁ = l₂ := by
  intro l₁
  induction l₁ with
  | nil =>
    intro l₂ hp _ _ _
    rw [hp.symm.eq_nil]
  | cons a t₁ ih =>
    intro l₂ hp h₁ h₂ hanti
    cases l₂ with
    | nil => simpa using hp.length_eq
    | cons b t₂ =>
      have hab : a = b := by
        by_cases h : a = b
        · exact h
        · have hbmem : b ∈ a :: t₁ := hp.mem_iff.mpr (List.mem_cons_self b t₂)
          have hbt : b ∈ t₁ := by
            rcases List.mem_cons.mp hbmem with h' | h'
            · exact absurd h'.symm h
            · exact h'
          have hamem : a ∈ b :: t₂ := hp.mem_iff.mp (List.mem_cons_self a t₁)
          have hat : a ∈ t₂ := by
            rcases List.mem_cons.mp hamem with h' | h'
            · exact absurd h' h
            · exact h'
          have hRab : R a b := (List.pairwise_cons.mp h₁).1 b hbt
          have hRba : R b a := (List.pairwise_cons.mp h₂).1 a hat
          exact hanti a (List.mem_cons_self a t₁) b hbmem hRab hRba
      subst hab
      have hp' : t₁.Perm t₂ := hp.cons_inv
      have htail := ih hp' (List.pairwise_cons.mp h₁).2 (List.pairwise_cons.mp h₂).2
        (fun x hx y hy hxy hyx =>
          hanti x (List.mem_cons_of_mem a hx) y (List.mem_cons_of_mem a hy) hxy hyx)
      rw [htail]

/-- C8 (amended): when the lowercased filenames of the input are pairwise
distinct, the filter-and-sort step with sort order desc produces exactly the
reverse of the sequence produced with asc.  (The counterexample shows this
fails when two records have case-insensitively equal filenames: the
comparator never returns 0, so the stable sort keeps ties in input order
under both orders and the reversal swaps them.) -/
theorem C8_desc_reverses_asc (q fs : String) (l : List Notebook)
    (hnodup : (l.map sortKey).Nodup) :
    applyFilters q fs "desc" l = (applyFilters q fs "asc" l).reverse := by
  have hsubl : (filterStep q fs l).Sublist l := filterStep_sublist q fs l
  have hnodupf : ((filterStep q fs l).map sortKey).Nodup :=
    hnodup.sublist (hsubl.map _)
  letI : IsTotal Notebook (jsLe "asc") := ⟨fun a b => by
    rw [jsLe_asc_iff, jsLe_asc_iff]
    by_cases h : lexLt (sortKey b) (sortKey a) = false
    · exact Or.inl h
    · exact Or.inr (lexLt_asymm _ _ (by simpa using h))⟩
  letI : IsTrans Notebook (jsLe "asc") := ⟨fun a b c hab hbc => by
    rw [jsLe_asc_iff] at hab hbc ⊢
    exact lexLt_le_trans _ _ _ hab hbc⟩
  letI : IsTotal Notebook (jsLe "desc") := ⟨fun a b => by
    rw [jsLe_desc_iff, jsLe_desc_iff]
    by_cases h : lexLt (sortKey a) (sortKey b) = false
    · exact Or.inl h
    · exact Or.inr (lexLt_asymm _ _ (by simpa using h))⟩
  letI : IsTrans Notebook (jsLe "desc") := ⟨fun a b c hab hbc => by
    rw [jsLe_desc_iff] at hab hbc ⊢
    exact lexLt_le_trans _ _ _ hbc hab⟩
  have hpermD := List.perm_insertionSort (jsLe "desc") (filterStep q fs l)
  have hpermA := List.perm_insertionSort (jsLe "asc") (filterStep q fs l)
  have hsortD := List.sorted_insertionSort (jsLe "desc") (filterStep q fs l)
  have hsortA := List.sorted_insertionSort (jsLe "asc") (filterStep q fs l)
  have hD : (List.insertionSort (jsLe "desc") (filterStep q fs l)).Pairwise
      (fun a b => lexLt (sortKey a) (sortKey b) = false) :=
    hsortD.imp (fun h => (jsLe_desc_iff _ _).mp h)
  have hArev : ((List.insertionSort (jsLe "asc") (filterStep q fs l)).reverse).Pairwise
      (fun a b => lexLt (sortKey a) (sortKey b) = false) := by
    rw [List.pairwise_reverse]
    exact hsortA.imp (fun h => (jsLe_asc_iff _ _).mp h)
  have hperm : (List.insertionSort (jsLe "desc") (filterStep q fs l)).Perm
      ((List.insertionSort (jsLe "asc") (filterStep q fs l)).reverse) :=
    hpermD.trans (hpermA.symm.trans ((List.reverse_perm _).symm))
  have hanti : ∀ a ∈ List.insertionSort (jsLe "desc") (filterStep q fs l),
      ∀ b ∈ List.insertionSort (jsLe "desc") (filterStep q fs l),
      lexLt (sortKey a) (sortKey b) = false →
      lexLt (sortKey b) (sortKey a) = false → a = b := by
    intro a ha b hb hab hba
    exact List.inj_on_of_nodup_map hnodupf
      (hpermD.subset ha) (hpermD.subset hb) (lexLt_antisymm_eq _ _ hab hba)
  exact eq_of_perm_of_pairwise hperm hD hArev hanti

/-- A merged notebook named "A.py": case-insensitively equal to "a.py". -/
def nbUpperA : Notebook :=
  { filename := "A.py", path := "1", size_bytes := 1
    modified_at := "", extra := [], session_id := none
    status := some "stopped", url := none }

/-- A merged notebook named "a.py". -/
def nbLowerA : Notebook :=
  { filename := "a.py", path := "2", size_bytes := 2
    modified_at := "", extra := [], session_id := none
    status := some "stopped", url := none }

/-- C8 (counterexample): with two records whose filenames are
case-insensitively equal ("A.py" and "a.py"), the comparator — which never
returns 0 — reports each tie as "first argument smaller" under both orders,
so the stable sort keeps the pair in input order for asc and for desc alike,
and the desc output is not the reverse of the asc output. -/
theorem C8_counterexample :
    applyFilters "" "all" "desc" [nbUpperA, nbLowerA] = [nbUpperA, nbLowerA] ∧
    applyFilters "" "all" "asc" [nbUpperA, nbLowerA] = [nbUpperA, nbLowerA] ∧
    applyFilters "" "all" "desc" [nbUpperA, nbLowerA] ≠
      (applyFilters "" "all" "asc" [nbUpperA, nbLowerA]).reverse := by
  refine ⟨by decide, by decide, by decide⟩

/-- Witness for C8 (amended): on notebooks "b.py", "a.py" with distinct
lowercased filenames, desc is exactly the reverse of asc. -/
theorem C8_desc_reverses_asc_witness :
    ([nbB, nbA].map sortKey).Nodup ∧
    applyFilters "" "all" "desc" [nbB, nbA] =
      (applyFilters "" "all" "asc" [nbB, nbA]).reverse := by
  exact ⟨by decide, C8_desc_reverses_asc "" "all" [nbB, nbA] (by decide)⟩

end DuckPond
